import Mathlib

/-!
# Verification of the spamf hash-based client-side router

A shallow embedding of the most evolved version of `src/router.js`
(the variant with `options.fragments`, the `resolvePage` /
`resolveNestedFragments` helpers and the `window.spamf.onMount` /
`window.spamf.onUnmount` lifecycle hooks).

Modelling conventions:
* DOM subtrees (`DocumentFragment` contents, the children of the root
  element) are `List Node`; `createContextualFragment` is treated as the
  identity on already-parsed trees, since HTML parsing is opaque to the
  router.
* The network (`fetch`) is an oracle `String → FetchResult`.  A response
  carries its `ok` flag and its parsed body; `response.text()` succeeds
  for non-OK statuses too, exactly as in the browser.
* Lifecycle hooks are opaque callbacks, modelled by numeric identifiers;
  invoking one is recorded as a trace event and has no state effect.
* The observable effects of one `render` call are collected in an
  ordered trace of events (`Ev`).  `Promise.all` concurrency (sibling
  slots, sibling scripts) is linearised in document order; the code
  makes no ordering promises among siblings, so any linearisation is a
  faithful schedule.
* `async` recursion in `resolveNestedFragments` can diverge on cyclic
  fragment tables, so the resolver takes a fuel bound on the nesting
  depth of fetched fragments: `none` means the bound was exhausted,
  and divergence of the JS function corresponds to `none` at every fuel.
-/

namespace Spamf

/-- A DOM node as the router observes it: text, a generic element with a
tag and children, a fragment slot marker (`<div data-slot="name">`), or
an anchor carrying its `href` attribute. -/
inductive Node where
  | text (s : String)
  | elem (tag : String) (children : List Node)
  | slot (name : String) (children : List Node)
  | a (href : String) (children : List Node)
deriving Repr

/-- Result of `fetch`: a transport failure (the promise rejects), or a
response with its `ok` flag and parsed body text. -/
inductive FetchResult where
  | netFail
  | success (ok : Bool) (content : List Node)
deriving Repr

/-- Observable events of one render transition, in execution order. -/
inductive Ev where
  | unmountHook (h : Nat)
  | fetchTemplate (path : String)
  | fetchFragment (path : String)
  | fragLoadError (name path : String)
  | fragFetchError (name path : String)
  | swap
  | rewriteLinks
  | scriptLoaded (src : String)
  | scriptFailed (src : String)
  | ready
  | mountHook (h : Nat)
deriving Repr, DecidableEq

/-- A route descriptor, as in the `routes` table:
`{ template, title?, styles?, scripts? }`. -/
structure Route where
  template : String
  title : Option String
  styles : List String
  scripts : List String
deriving Repr, DecidableEq

/-- What a dynamically appended script does once its load settles: the
load fails (`onerror`, the script never runs), or it loads and, while
running, possibly assigns `window.spamf.onMount` / `window.spamf.onUnmount`. -/
inductive ScriptOutcome where
  | fail
  | loaded (mount unmount : Option Nat)
deriving Repr, DecidableEq

/-- Browser-visible state the router reads and writes: the location
hash, the `window.spamf` hook slots, the root element's children, the
document title, and the dynamically injected styles and scripts. -/
structure RouterState where
  hash : String
  onMount : Option Nat
  onUnmount : Option Nat
  rootContent : List Node
  title : String
  dynamicStyles : List String
  dynamicScripts : List String
deriving Repr

/-- Static configuration of one `initRouter` call plus the environment:
the route table, the fragment table, the network and script behaviour. -/
structure Config where
  routes : List (String × Route)
  fragments : List (String × String)
  server : String → FetchResult
  scriptOutcome : String → ScriptOutcome

/-- `window.location.hash.slice(1) || "/"`: drop the leading `#`
(JS `slice(1)` drops the first unit of any string) and default the
empty remainder to `"/"`. -/
def normalize (hash : String) : String :=
  let p := String.mk (hash.data.drop 1)
  if p = "" then "/" else p

/-- `routes[path] || routes[404]` (the numeric key `404` indexes as the
string `"404"`). -/
def lookupRoute (routes : List (String × Route)) (path : String) : Option Route :=
  (routes.lookup path).or (routes.lookup "404")

mutual
/-- One pass of `resolveNestedFragments` over a single node, given a
resolver `rec` for the content of fetched fragments.  A slot marker is
looked up in the fragment table; absence is a no-op, a failed fetch is
logged and leaves the marker, an OK fetch is recursively resolved to
full depth and then spliced in place of the marker (its own children are
discarded by `slot.replaceWith`).  Slots syntactically nested below a
marker are part of the same `querySelectorAll` batch, which is what the
structural recursion into children models. -/
def resolveNodeAux (rec : List Node → Option (List Node × List Ev))
    (frag : List (String × String)) (server : String → FetchResult) :
    Node → Option (List Node × List Ev)
  | .text s => some ([.text s], [])
  | .a href cs =>
      (resolveListAux rec frag server cs).map fun p => ([.a href p.1], p.2)
  | .elem tag cs =>
      (resolveListAux rec frag server cs).map fun p => ([.elem tag p.1], p.2)
  | .slot name cs =>
      match frag.lookup name with
      | none => (resolveListAux rec frag server cs).map fun p => ([.slot name p.1], p.2)
      | some path =>
          match server path with
          | .netFail =>
              (resolveListAux rec frag server cs).map fun p =>
                ([.slot name p.1], Ev.fetchFragment path :: Ev.fragFetchError name path :: p.2)
          | .success false _ =>
              (resolveListAux rec frag server cs).map fun p =>
                ([.slot name p.1], Ev.fetchFragment path :: Ev.fragLoadError name path :: p.2)
          | .success true content =>
              (rec content).map fun p => (p.1, Ev.fetchFragment path :: p.2)

/-- `resolveNodeAux` extended over a sibling list (the `Promise.all`
over the slot batch, linearised in document order). -/
def resolveListAux (rec : List Node → Option (List Node × List Ev))
    (frag : List (String × String)) (server : String → FetchResult) :
    List Node → Option (List Node × List Ev)
  | [] => some ([], [])
  | n :: ns => do
      let a ← resolveNodeAux rec frag server n
      let b ← resolveListAux rec frag server ns
      some (a.1 ++ b.1, a.2 ++ b.2)
end

/-- `resolveNestedFragments`, with `fuel` bounding the nesting depth of
fetched fragments.  `none` models the unbounded recursion of the JS
function: it diverges on an input exactly when every fuel yields `none`. -/
def resolveList (frag : List (String × String)) (server : String → FetchResult) :
    Nat → List Node → Option (List Node × List Ev)
  | 0 => resolveListAux (fun _ => none) frag server
  | fuel + 1 => resolveListAux (resolveList frag server fuel) frag server

mutual
/-- The link rewrite of `render`: every anchor whose `href` starts with
`/` gets the `#` marker prefixed (`anchor.setAttribute("href", "#" + href)`). -/
def rewriteNode : Node → Node
  | .text s => .text s
  | .elem tag cs => .elem tag (rewriteList cs)
  | .slot name cs => .slot name (rewriteList cs)
  | .a href cs =>
      .a (if href.data.head? = some '/' then "#" ++ href else href) (rewriteList cs)

/-- `rewriteNode` over a sibling list. -/
def rewriteList : List Node → List Node
  | [] => []
  | n :: ns => rewriteNode n :: rewriteList ns
end

/-- The awaited `Promise.all` over a route's scripts (lines 249-261):
each script node is appended, its load settles, a failed load is logged
(`onerror`) and a loaded script runs and may assign the
`window.spamf.onMount` / `window.spamf.onUnmount` slots.  Sibling loads
settle concurrently; they are linearised in list order. -/
def runScripts (outcome : String → ScriptOutcome) :
    List String → RouterState → RouterState × List Ev
  | [], s => (s, [])
  | src :: rest, s =>
      match outcome src with
      | .fail =>
          let p := runScripts outcome rest s
          (p.1, Ev.scriptFailed src :: p.2)
      | .loaded m u =>
          let s1 := match m with
            | some h => { s with onMount := some h }
            | none => s
          let s2 := match u with
            | some h => { s1 with onUnmount := some h }
            | none => s1
          let p := runScripts outcome rest s2
          (p.1, Ev.scriptLoaded src :: p.2)

/-- The net value of the `window.spamf.onMount` slot after the scripts
of a page have all settled, starting from `init`. -/
def finalMountReg (outcome : String → ScriptOutcome) :
    List String → Option Nat → Option Nat
  | [], init => init
  | src :: rest, init =>
      finalMountReg outcome rest
        (match outcome src with
         | .loaded (some h) _ => some h
         | _ => init)

/-- The net value of the `window.spamf.onUnmount` slot after the scripts
of a page have all settled, starting from `init`. -/
def finalUnmountReg (outcome : String → ScriptOutcome) :
    List String → Option Nat → Option Nat
  | [], init => init
  | src :: rest, init =>
      finalUnmountReg outcome rest
        (match outcome src with
         | .loaded _ (some h) => some h
         | _ => init)

/-- Trace of `await (window.spamf.onUnmount || (async () => {}))()`. -/
def unmountTrace : Option Nat → List Ev
  | some h => [Ev.unmountHook h]
  | none => []

/-- Trace of `await (window.spamf.onMount || (async () => {}))()`. -/
def mountTrace : Option Nat → List Ev
  | some h => [Ev.mountHook h]
  | none => []

/-- The literal markup assigned by `root.innerHTML = "<h1>404 - Page Not
Found</h1>"` in the terminal missing-route branch. -/
def notFoundMarkup : List Node := [Node.elem "h1" [Node.text "404 - Page Not Found"]]

/-- The title set in the terminal missing-route branch. -/
def notFoundTitle : String := "404 - Page Not Found"

/-- Lines 224-264 of `render`, after the unmount step and the route
lookup succeeded: set the title from the route descriptor, fetch the
template (a transport failure rejects the render promise, uncaught; a
non-OK status is not checked and its body is used), resolve fragments to
completion, swap the root's children, rewrite root-absolute links,
replace the dynamic styles and scripts, and finally consult and clear
the mount hook.  The first component is `none` when the render promise
rejects or fragment resolution diverges. -/
def renderRoute (cfg : Config) (fuel : Nat) (s : RouterState) (route : Route) :
    Option RouterState × List Ev :=
  let s := { s with title := route.title.getD "Untitled Page" }
  match cfg.server route.template with
  | .netFail => (none, [Ev.fetchTemplate route.template])
  | .success _ content =>
      match resolveList cfg.fragments cfg.server fuel content with
      | none => (none, [Ev.fetchTemplate route.template])
      | some (resolved, fragTr) =>
          let s := { s with rootContent := rewriteList resolved,
                            dynamicStyles := route.styles,
                            dynamicScripts := route.scripts }
          let p := runScripts cfg.scriptOutcome route.scripts s
          (some { p.1 with onMount := none },
            Ev.fetchTemplate route.template :: fragTr
              ++ [Ev.swap, Ev.rewriteLinks] ++ p.2
              ++ [Ev.ready] ++ mountTrace p.1.onMount)

/-- The `render` function (lines 209-265): invoke and clear the unmount
hook, normalize the hash, look the key up with the `404` fallback;
a missing route renders the literal not-found page and stops, otherwise
the transition proceeds through `renderRoute`.  The `Ev.ready` event
marks the point where all script load attempts have settled and the
newly loaded page has finished registering its hooks, directly before
the mount-hook consult. -/
def render (cfg : Config) (fuel : Nat) (s : RouterState) :
    Option RouterState × List Ev :=
  let unTr := unmountTrace s.onUnmount
  let s1 := { s with onUnmount := none }
  match lookupRoute cfg.routes (normalize s.hash) with
  | none =>
      (some { s1 with rootContent := notFoundMarkup, title := notFoundTitle }, unTr)
  | some route =>
      let p := renderRoute cfg fuel s1 route
      (p.1, unTr ++ p.2)

mutual
/-- No slot marker anywhere in the node refers to a fragment that is
both present in the fragment table and served with an OK response;
such markers are exactly the ones fragment resolution can still splice. -/
def noResolvableSlot (frag : List (String × String))
    (server : String → FetchResult) : Node → Bool
  | .text _ => true
  | .elem _ cs => noResolvableList frag server cs
  | .a _ cs => noResolvableList frag server cs
  | .slot name cs =>
      (match frag.lookup name with
       | none => true
       | some path =>
           match server path with
           | .success true _ => false
           | _ => true) && noResolvableList frag server cs

/-- `noResolvableSlot` over a sibling list. -/
def noResolvableList (frag : List (String × String))
    (server : String → FetchResult) : List Node → Bool
  | [] => true
  | n :: ns => noResolvableSlot frag server n && noResolvableList frag server ns
end

/-- Every event of the trace satisfying `p` occurs strictly before every
event satisfying `q`. -/
def evBefore (p q : Ev → Bool) (t : List Ev) : Prop :=
  ∀ i j : Fin t.length, p (t.get i) = true → q (t.get j) = true → (i : Nat) < (j : Nat)

/-- Classifier: unmount-hook invocation events. -/
def Ev.isUnmount : Ev → Bool
  | .unmountHook _ => true
  | _ => false

/-- Classifier: the template fetch of the transition. -/
def Ev.isFetchTemplate : Ev → Bool
  | .fetchTemplate _ => true
  | _ => false

/-- Classifier: events emitted by fragment resolution. -/
def Ev.isFrag : Ev → Bool
  | .fetchFragment _ => true
  | .fragLoadError _ _ => true
  | .fragFetchError _ _ => true
  | _ => false

/-- Classifier: the swap of the root's children. -/
def Ev.isSwap : Ev → Bool
  | .swap => true
  | _ => false

/-- Classifier: the link rewrite step. -/
def Ev.isRewrite : Ev → Bool
  | .rewriteLinks => true
  | _ => false

/-- Classifier: script load outcomes. -/
def Ev.isScript : Ev → Bool
  | .scriptLoaded _ => true
  | .scriptFailed _ => true
  | _ => false

/-- Classifier: the ready signal. -/
def Ev.isReady : Ev → Bool
  | .ready => true
  | _ => false

/-- Classifier: mount-hook invocation events. -/
def Ev.isMount : Ev → Bool
  | .mountHook _ => true
  | _ => false

/-!
## Concrete scenario used by witnesses and counterexamples
-/

/-- Fragment table of the witness scenario. -/
def fragW : List (String × String) :=
  [("nav", "nav.html"), ("side", "side.html"), ("bad", "bad.html"), ("down", "down.html")]

/-- Network of the witness scenario: a nested fragment chain
(`nav.html` references `side`), a non-OK fragment (`bad.html`), a
transport-failing fragment (`down.html`), and the page templates. -/
def serverW : String → FetchResult := fun p =>
  if p = "nav.html" then .success true [Node.elem "nav" [Node.slot "side" []]]
  else if p = "side.html" then .success true [Node.text "S"]
  else if p = "bad.html" then .success false []
  else if p = "home.html" then .success true [Node.slot "nav" [], Node.a "/about" []]
  else if p = "404.html" then .success true [Node.text "gone"]
  else if p = "plain.html" then .success true [Node.text "p"]
  else if p = "t.html" then .success true [Node.elem "title" [Node.text "From Marker"]]
  else .netFail

/-- The `/` route of the witness scenario. -/
def routeHomeW : Route :=
  { template := "home.html", title := some "Home", styles := ["home.css"],
    scripts := ["home.js"] }

/-- The `404` route of the witness scenario (no declared title). -/
def route404W : Route :=
  { template := "404.html", title := none, styles := [], scripts := ["nf.js"] }

/-- Script behaviour of the witness scenario: `home.js` registers mount
hook `11` and unmount hook `12`; `nf.js` registers mount hook `9`. -/
def scriptsW : String → ScriptOutcome := fun src =>
  if src = "home.js" then .loaded (some 11) (some 12)
  else if src = "nf.js" then .loaded (some 9) none
  else .fail

/-- Witness configuration with both a `/` route and a `404` route. -/
def cfgW : Config :=
  { routes := [("/", routeHomeW), ("404", route404W)], fragments := fragW,
    server := serverW, scriptOutcome := scriptsW }

/-- Witness configuration without a `404` route. -/
def cfgNo404 : Config :=
  { routes := [("/", routeHomeW)], fragments := fragW,
    server := serverW, scriptOutcome := scriptsW }

/-- Witness start state: previous page registered unmount hook `3`. -/
def sW : RouterState :=
  { hash := "#/", onMount := none, onUnmount := some 3, rootContent := [],
    title := "", dynamicStyles := [], dynamicScripts := [] }

/-- Fragment table of the self-referencing scenario of the spec:
`{ "nav": "nav.html" }`. -/
def fragCyc : List (String × String) := [("nav", "nav.html")]

/-- Network where `nav.html` itself contains a slot named `nav` — the
name is in the fragment table, so resolution re-enters itself. -/
def serverCyc : String → FetchResult := fun p =>
  if p = "nav.html" then .success true [Node.slot "nav" []] else .netFail

/-- Network where `nav.html` contains a slot named `sidebar`, which
points at nothing (absent from the fragment table). -/
def serverAcyc : String → FetchResult := fun p =>
  if p = "nav.html" then .success true [Node.slot "sidebar" []] else .netFail

/-- The state assembled by lines 224-254 of `render` before the scripts
run: unmount slot cleared, title from the route descriptor, resolved and
link-rewritten content, replaced dynamic styles and scripts. -/
def assembled (s : RouterState) (route : Route) (resolved : List Node) : RouterState :=
  { s with
    onUnmount := none
    rootContent := rewriteList resolved
    title := route.title.getD "Untitled Page"
    dynamicStyles := route.styles
    dynamicScripts := route.scripts }

/-- Route and configuration for the C5/C6 counterexamples: a single
plain route whose page registers nothing. -/
def routePlainW : Route :=
  { template := "plain.html", title := some "P", styles := [], scripts := [] }

/-- Configuration with only the plain route. -/
def cfgPlain : Config :=
  { routes := [("/", routePlainW)], fragments := [], server := serverW,
    scriptOutcome := scriptsW }

/-- Route and configuration for the C6 counterexample: a route with no
declared title whose template markup carries a title-like element. -/
def routeTitleW : Route :=
  { template := "t.html", title := none, styles := [], scripts := [] }

/-- Configuration with only the title-marker route. -/
def cfgTitle : Config :=
  { routes := [("/", routeTitleW)], fragments := [], server := serverW,
    scriptOutcome := scriptsW }

/-- The witness start state navigated to a missing key. -/
def sMissW : RouterState := { sW with hash := "#/missing" }

/-- If no `p`-event occurs in the second part and no `q`-event in the
first part of a split, every `p`-event precedes every `q`-event. -/
theorem evBefore_of_split {p q : Ev → Bool} {t l1 l2 : List Ev}
    (ht : t = l1 ++ l2)
    (hp : ∀ e ∈ l2, p e = false) (hq : ∀ e ∈ l1, q e = false) :
    evBefore p q t := by
  subst ht
  intro i j hpi hqj
  have hi : (i : Nat) < l1.length := by
    by_contra hge
    push_neg at hge
    have hj' : (i : Nat) - l1.length < l2.length := by
      have := i.isLt
      simp only [List.length_append] at this
      omega
    have : (l1 ++ l2).get i = l2[(i : Nat) - l1.length] := by
      simp [List.get_eq_getElem]
      exact List.getElem_append_right hge
    rw [this] at hpi
    have := hp _ (List.getElem_mem hj')
    simp [this] at hpi
  have hj : l1.length ≤ (j : Nat) := by
    by_contra hlt
    push_neg at hlt
    have : (l1 ++ l2).get j = l1[(j : Nat)] := by
      simp [List.get_eq_getElem]
      exact List.getElem_append_left hlt
    rw [this] at hqj
    have := hq _ (List.getElem_mem hlt)
    simp [this] at hqj
  omega

/-- Unfolding equation for `resolveListAux` on a cons cell. -/
theorem resolveListAux_cons {rec : List Node → Option (List Node × List Ev)}
    {frag : List (String × String)} {server : String → FetchResult}
    {n : Node} {ns : List Node} :
    resolveListAux rec frag server (n :: ns)
      = (resolveNodeAux rec frag server n).bind fun a =>
          (resolveListAux rec frag server ns).bind fun b =>
            some (a.1 ++ b.1, a.2 ++ b.2) := rfl

/-- Splicing two successfully resolved sibling lists resolves their
concatenation, concatenating outputs and traces. -/
theorem resolveListAux_append {rec : List Node → Option (List Node × List Ev)}
    {frag : List (String × String)} {server : String → FetchResult}
    {l1 l2 : List Node} {a b : List Node} {ta tb : List Ev}
    (h1 : resolveListAux rec frag server l1 = some (a, ta))
    (h2 : resolveListAux rec frag server l2 = some (b, tb)) :
    resolveListAux rec frag server (l1 ++ l2) = some (a ++ b, ta ++ tb) := by
  induction l1 generalizing a ta with
  | nil =>
    simp [resolveListAux] at h1
    simp [h1.1, h1.2, h2]
  | cons n ns ih =>
    rw [resolveListAux_cons] at h1
    rw [List.cons_append, resolveListAux_cons]
    cases hn : resolveNodeAux rec frag server n with
    | none => rw [hn] at h1; simp at h1
    | some pn =>
      obtain ⟨ra, rta⟩ := pn
      rw [hn] at h1
      cases hns : resolveListAux rec frag server ns with
      | none => rw [hns] at h1; simp at h1
      | some pns =>
        obtain ⟨na, nta⟩ := pns
        rw [hns] at h1
        simp only [Option.some_bind, Option.some.injEq, Prod.mk.injEq] at h1
        obtain ⟨ha, hta⟩ := h1
        subst ha hta
        rw [ih hns]
        simp [List.append_assoc]

mutual

/-- Every event emitted while resolving one node is a fragment event,
provided the recursive resolver only emits fragment events. -/
theorem resolveNodeAux_frag_events
    {rec : List Node → Option (List Node × List Ev)}
    {frag : List (String × String)} {server : String → FetchResult}
    (hrec : ∀ c r, rec c = some r → ∀ e ∈ r.2, Ev.isFrag e = true)
    (n : Node) {r : List Node × List Ev}
    (h : resolveNodeAux rec frag server n = some r) :
    ∀ e ∈ r.2, Ev.isFrag e = true := by
  cases n with
  | text s =>
    simp only [resolveNodeAux, Option.some.injEq] at h
    subst h
    simp
  | a href cs =>
    simp only [resolveNodeAux, Option.map_eq_some'] at h
    obtain ⟨p, hp, hr⟩ := h
    subst hr
    exact @resolveListAux_frag_events rec frag server hrec cs p hp
  | elem tag cs =>
    simp only [resolveNodeAux, Option.map_eq_some'] at h
    obtain ⟨p, hp, hr⟩ := h
    subst hr
    exact @resolveListAux_frag_events rec frag server hrec cs p hp
  | slot name cs =>
    cases hl : frag.lookup name with
    | none =>
      simp only [resolveNodeAux, hl, Option.map_eq_some'] at h
      obtain ⟨p, hp, hr⟩ := h
      subst hr
      exact @resolveListAux_frag_events rec frag server hrec cs p hp
    | some path =>
      cases hs : server path with
      | netFail =>
        simp only [resolveNodeAux, hl, hs, Option.map_eq_some'] at h
        obtain ⟨p, hp, hr⟩ := h
        subst hr
        intro e he
        simp only [List.mem_cons] at he
        rcases he with rfl | rfl | he
        · rfl
        · rfl
        · exact @resolveListAux_frag_events rec frag server hrec cs p hp e he
      | success ok content =>
        cases ok with
        | false =>
          simp only [resolveNodeAux, hl, hs, Option.map_eq_some'] at h
          obtain ⟨p, hp, hr⟩ := h
          subst hr
          intro e he
          simp only [List.mem_cons] at he
          rcases he with rfl | rfl | he
          · rfl
          · rfl
          · exact @resolveListAux_frag_events rec frag server hrec cs p hp e he
        | true =>
          simp only [resolveNodeAux, hl, hs, Option.map_eq_some'] at h
          obtain ⟨p, hp, hr⟩ := h
          subst hr
          intro e he
          simp only [List.mem_cons] at he
          rcases he with rfl | he
          · rfl
          · exact hrec _ _ hp e he

/-- Every event emitted while resolving a sibling list is a fragment
event, provided the recursive resolver only emits fragment events. -/
theorem resolveListAux_frag_events
    {rec : List Node → Option (List Node × List Ev)}
    {frag : List (String × String)} {server : String → FetchResult}
    (hrec : ∀ c r, rec c = some r → ∀ e ∈ r.2, Ev.isFrag e = true)
    (l : List Node) {r : List Node × List Ev}
    (h : resolveListAux rec frag server l = some r) :
    ∀ e ∈ r.2, Ev.isFrag e = true := by
  cases l with
  | nil =>
    simp only [resolveListAux, Option.some.injEq] at h
    subst h
    simp
  | cons n ns =>
    rw [resolveListAux_cons] at h
    cases hn : resolveNodeAux rec frag server n with
    | none => rw [hn] at h; simp at h
    | some pn =>
      rw [hn] at h
      cases hns : resolveListAux rec frag server ns with
      | none => rw [hns] at h; simp at h
      | some pns =>
        rw [hns] at h
        simp only [Option.some_bind, Option.some.injEq] at h
        subst h
        intro e he
        simp only [List.mem_append] at he
        rcases he with he | he
        · exact resolveNodeAux_frag_events hrec n hn e he
        · exact resolveListAux_frag_events hrec ns hns e he

end

/-- `noResolvableList` holds of a list iff it holds of every member. -/
theorem noResolvableList_of_all
    {frag : List (String × String)} {server : String → FetchResult}
    {l : List Node}
    (h : ∀ m ∈ l, noResolvableSlot frag server m = true) :
    noResolvableList frag server l = true := by
  induction l with
  | nil => rfl
  | cons n ns ih =>
    simp only [noResolvableList, Bool.and_eq_true]
    exact ⟨h n (List.mem_cons_self n ns), ih fun m hm => h m (List.mem_cons_of_mem n hm)⟩

mutual

/-- Resolution of one node leaves no marker of a fetchable fragment in
its output, provided the recursive resolver has the same property. -/
theorem resolveNodeAux_no_resolvable
    {rec : List Node → Option (List Node × List Ev)}
    {frag : List (String × String)} {server : String → FetchResult}
    (hrec : ∀ c r, rec c = some r → ∀ m ∈ r.1, noResolvableSlot frag server m = true)
    (n : Node) {r : List Node × List Ev}
    (h : resolveNodeAux rec frag server n = some r) :
    ∀ m ∈ r.1, noResolvableSlot frag server m = true := by
  cases n with
  | text s =>
    simp only [resolveNodeAux, Option.some.injEq] at h
    subst h
    simp [noResolvableSlot]
  | a href cs =>
    simp only [resolveNodeAux, Option.map_eq_some'] at h
    obtain ⟨p, hp, hr⟩ := h
    subst hr
    intro m hm
    simp only [List.mem_singleton] at hm
    subst hm
    simp only [noResolvableSlot]
    exact noResolvableList_of_all
      (@resolveListAux_no_resolvable rec frag server hrec cs p hp)
  | elem tag cs =>
    simp only [resolveNodeAux, Option.map_eq_some'] at h
    obtain ⟨p, hp, hr⟩ := h
    subst hr
    intro m hm
    simp only [List.mem_singleton] at hm
    subst hm
    simp only [noResolvableSlot]
    exact noResolvableList_of_all
      (@resolveListAux_no_resolvable rec frag server hrec cs p hp)
  | slot name cs =>
    cases hl : frag.lookup name with
    | none =>
      simp only [resolveNodeAux, hl, Option.map_eq_some'] at h
      obtain ⟨p, hp, hr⟩ := h
      subst hr
      intro m hm
      simp only [List.mem_singleton] at hm
      subst hm
      simp only [noResolvableSlot, hl, Bool.true_and]
      exact noResolvableList_of_all
        (@resolveListAux_no_resolvable rec frag server hrec cs p hp)
    | some path =>
      cases hs : server path with
      | netFail =>
        simp only [resolveNodeAux, hl, hs, Option.map_eq_some'] at h
        obtain ⟨p, hp, hr⟩ := h
        subst hr
        intro m hm
        simp only [List.mem_singleton] at hm
        subst hm
        simp only [noResolvableSlot, hl, hs, Bool.true_and]
        exact noResolvableList_of_all
          (@resolveListAux_no_resolvable rec frag server hrec cs p hp)
      | success ok content =>
        cases ok with
        | false =>
          simp only [resolveNodeAux, hl, hs, Option.map_eq_some'] at h
          obtain ⟨p, hp, hr⟩ := h
          subst hr
          intro m hm
          simp only [List.mem_singleton] at hm
          subst hm
          simp only [noResolvableSlot, hl, hs, Bool.true_and]
          exact noResolvableList_of_all
            (@resolveListAux_no_resolvable rec frag server hrec cs p hp)
        | true =>
          simp only [resolveNodeAux, hl, hs, Option.map_eq_some'] at h
          obtain ⟨p, hp, hr⟩ := h
          subst hr
          exact fun m hm => hrec content p hp m hm

/-- Resolution of a sibling list leaves no marker of a fetchable
fragment in its output, provided the recursive resolver has the same
property. -/
theorem resolveListAux_no_resolvable
    {rec : List Node → Option (List Node × List Ev)}
    {frag : List (String × String)} {server : String → FetchResult}
    (hrec : ∀ c r, rec c = some r → ∀ m ∈ r.1, noResolvableSlot frag server m = true)
    (l : List Node) {r : List Node × List Ev}
    (h : resolveListAux rec frag server l = some r) :
    ∀ m ∈ r.1, noResolvableSlot frag server m = true := by
  cases l with
  | nil =>
    simp only [resolveListAux, Option.some.injEq] at h
    subst h
    simp
  | cons n ns =>
    rw [resolveListAux_cons] at h
    cases hn : resolveNodeAux rec frag server n with
    | none => rw [hn] at h; simp at h
    | some pn =>
      rw [hn] at h
      cases hns : resolveListAux rec frag server ns with
      | none => rw [hns] at h; simp at h
      | some pns =>
        rw [hns] at h
        simp only [Option.some_bind, Option.some.injEq] at h
        subst h
        intro m hm
        simp only [List.mem_append] at hm
        rcases hm with hm | hm
        · exact resolveNodeAux_no_resolvable hrec n hn m hm
        · exact resolveListAux_no_resolvable hrec ns hns m hm

end

/-- Every output node of the fuelled resolver contains no marker of a
fetchable fragment. -/
theorem resolveList_no_resolvable
    {frag : List (String × String)} {server : String → FetchResult}
    (fuel : Nat) (l : List Node) {r : List Node × List Ev}
    (h : resolveList frag server fuel l = some r) :
    ∀ m ∈ r.1, noResolvableSlot frag server m = true := by
  induction fuel generalizing l r with
  | zero =>
    exact resolveListAux_no_resolvable (fun c r hc => by simp at hc) l h
  | succ f ih =>
    exact resolveListAux_no_resolvable (fun c r hc => ih c hc) l h

/-- Every event emitted by the fuelled resolver is a fragment event. -/
theorem resolveList_frag_events
    {frag : List (String × String)} {server : String → FetchResult}
    (fuel : Nat) (l : List Node) {r : List Node × List Ev}
    (h : resolveList frag server fuel l = some r) :
    ∀ e ∈ r.2, Ev.isFrag e = true := by
  induction fuel generalizing l r with
  | zero =>
    exact resolveListAux_frag_events (fun c r hc => by simp at hc) l h
  | succ f ih =>
    exact resolveListAux_frag_events (fun c r hc => ih c hc) l h

/-- Script loading emits only script load events. -/
theorem runScripts_script_events (o : String → ScriptOutcome)
    (l : List String) (s : RouterState) :
    ∀ e ∈ (runScripts o l s).2, Ev.isScript e = true := by
  induction l generalizing s with
  | nil => simp [runScripts]
  | cons src rest ih =>
    intro e he
    cases ho : o src with
    | fail =>
      simp only [runScripts, ho, List.mem_cons] at he
      rcases he with rfl | he
      · rfl
      · exact ih s e he
    | loaded m u =>
      simp only [runScripts, ho, List.mem_cons] at he
      rcases he with rfl | he
      · rfl
      · exact ih _ e he

/-- Script loading only touches the two hook slots. -/
theorem runScripts_fields (o : String → ScriptOutcome)
    (l : List String) (s : RouterState) :
    (runScripts o l s).1.hash = s.hash ∧
    (runScripts o l s).1.title = s.title ∧
    (runScripts o l s).1.rootContent = s.rootContent ∧
    (runScripts o l s).1.dynamicStyles = s.dynamicStyles ∧
    (runScripts o l s).1.dynamicScripts = s.dynamicScripts := by
  induction l generalizing s with
  | nil => simp [runScripts]
  | cons src rest ih =>
    cases ho : o src with
    | fail => simpa [runScripts, ho] using ih s
    | loaded m u =>
      cases m <;> cases u <;> simpa [runScripts, ho] using ih _

/-- The `window.spamf.onMount` slot after script loading is the last
mount registration, defaulting to the initial slot value. -/
theorem runScripts_onMount (o : String → ScriptOutcome)
    (l : List String) (s : RouterState) :
    (runScripts o l s).1.onMount = finalMountReg o l s.onMount := by
  induction l generalizing s with
  | nil => rfl
  | cons src rest ih =>
    cases ho : o src with
    | fail => simpa [runScripts, finalMountReg, ho] using ih s
    | loaded m u =>
      cases m <;> cases u <;> simpa [runScripts, finalMountReg, ho] using ih _

/-- The `window.spamf.onUnmount` slot after script loading is the last
unmount registration, defaulting to the initial slot value. -/
theorem runScripts_onUnmount (o : String → ScriptOutcome)
    (l : List String) (s : RouterState) :
    (runScripts o l s).1.onUnmount = finalUnmountReg o l s.onUnmount := by
  induction l generalizing s with
  | nil => rfl
  | cons src rest ih =>
    cases ho : o src with
    | fail => simpa [runScripts, finalUnmountReg, ho] using ih s
    | loaded m u =>
      cases m <;> cases u <;> simpa [runScripts, finalUnmountReg, ho] using ih _

/-- The unmount step emits only unmount-hook events. -/
theorem unmountTrace_events (o : Option Nat) :
    ∀ e ∈ unmountTrace o, Ev.isUnmount e = true := by
  cases o <;> simp [unmountTrace, Ev.isUnmount]

/-- The mount step emits only mount-hook events. -/
theorem mountTrace_events (o : Option Nat) :
    ∀ e ∈ mountTrace o, Ev.isMount e = true := by
  cases o <;> simp [mountTrace, Ev.isMount]

/-- A fragment event is no other kind of event. -/
theorem isFrag_excl {e : Ev} (h : Ev.isFrag e = true) :
    Ev.isUnmount e = false ∧ Ev.isFetchTemplate e = false ∧
    Ev.isSwap e = false ∧ Ev.isRewrite e = false ∧
    Ev.isScript e = false ∧ Ev.isReady e = false ∧ Ev.isMount e = false := by
  cases e <;> simp_all [Ev.isFrag, Ev.isUnmount, Ev.isFetchTemplate, Ev.isSwap,
    Ev.isRewrite, Ev.isScript, Ev.isReady, Ev.isMount]

/-- A script load event is no other kind of event. -/
theorem isScript_excl {e : Ev} (h : Ev.isScript e = true) :
    Ev.isUnmount e = false ∧ Ev.isFetchTemplate e = false ∧
    Ev.isSwap e = false ∧ Ev.isRewrite e = false ∧
    Ev.isFrag e = false ∧ Ev.isReady e = false ∧ Ev.isMount e = false := by
  cases e <;> simp_all [Ev.isFrag, Ev.isUnmount, Ev.isFetchTemplate, Ev.isSwap,
    Ev.isRewrite, Ev.isScript, Ev.isReady, Ev.isMount]

/-- An unmount-hook event is no other kind of event. -/
theorem isUnmount_excl {e : Ev} (h : Ev.isUnmount e = true) :
    Ev.isFetchTemplate e = false ∧ Ev.isSwap e = false ∧
    Ev.isRewrite e = false ∧ Ev.isScript e = false ∧
    Ev.isFrag e = false ∧ Ev.isReady e = false ∧ Ev.isMount e = false := by
  cases e <;> simp_all [Ev.isFrag, Ev.isUnmount, Ev.isFetchTemplate, Ev.isSwap,
    Ev.isRewrite, Ev.isScript, Ev.isReady, Ev.isMount]

/-- A mount-hook event is no other kind of event. -/
theorem isMount_excl {e : Ev} (h : Ev.isMount e = true) :
    Ev.isFetchTemplate e = false ∧ Ev.isSwap e = false ∧
    Ev.isRewrite e = false ∧ Ev.isScript e = false ∧
    Ev.isFrag e = false ∧ Ev.isReady e = false ∧ Ev.isUnmount e = false := by
  cases e <;> simp_all [Ev.isFrag, Ev.isUnmount, Ev.isFetchTemplate, Ev.isSwap,
    Ev.isRewrite, Ev.isScript, Ev.isReady, Ev.isMount]



theorem renderTrace_order (unTr fragTr scriptTr mountTr : List Ev) (path : String)
    (hhu : ∀ e ∈ unTr, Ev.isUnmount e = true)
    (hhf : ∀ e ∈ fragTr, Ev.isFrag e = true)
    (hhs : ∀ e ∈ scriptTr, Ev.isScript e = true)
    (hhm : ∀ e ∈ mountTr, Ev.isMount e = true) :
    evBefore Ev.isUnmount Ev.isFetchTemplate
      (unTr ++ (Ev.fetchTemplate path :: fragTr ++ [Ev.swap, Ev.rewriteLinks] ++ scriptTr ++ [Ev.ready] ++ mountTr)) ∧
    evBefore Ev.isSwap Ev.isRewrite
      (unTr ++ (Ev.fetchTemplate path :: fragTr ++ [Ev.swap, Ev.rewriteLinks] ++ scriptTr ++ [Ev.ready] ++ mountTr)) ∧
    evBefore Ev.isScript Ev.isReady
      (unTr ++ (Ev.fetchTemplate path :: fragTr ++ [Ev.swap, Ev.rewriteLinks] ++ scriptTr ++ [Ev.ready] ++ mountTr)) ∧
    evBefore Ev.isReady Ev.isMount
      (unTr ++ (Ev.fetchTemplate path :: fragTr ++ [Ev.swap, Ev.rewriteLinks] ++ scriptTr ++ [Ev.ready] ++ mountTr)) := by
  refine ⟨?_, ?_, ?_, ?_⟩
  · refine @evBefore_of_split _ _ _ unTr
      (Ev.fetchTemplate path :: fragTr ++ [Ev.swap, Ev.rewriteLinks] ++ scriptTr ++ [Ev.ready] ++ mountTr)
      rfl ?_ ?_
    · intro e he
      simp only [List.mem_cons, List.mem_append, List.mem_singleton, List.not_mem_nil,
        or_false, false_or, or_assoc] at he
      rcases he with rfl | h | rfl | rfl | h | rfl | h
      · rfl
      · exact (isFrag_excl (hhf _ h)).1
      · rfl
      · rfl
      · exact (isScript_excl (hhs _ h)).1
      · rfl
      · exact (isMount_excl (hhm _ h)).2.2.2.2.2.2
    · intro e he
      exact (isUnmount_excl (hhu _ he)).1
  · refine @evBefore_of_split _ _ _
      (unTr ++ Ev.fetchTemplate path :: fragTr ++ [Ev.swap])
      (Ev.rewriteLinks :: scriptTr ++ [Ev.ready] ++ mountTr)
      (by simp) ?_ ?_
    · intro e he
      simp only [List.mem_cons, List.mem_append, List.mem_singleton, List.not_mem_nil,
        or_false, false_or, or_assoc] at he
      rcases he with rfl | h | rfl | h
      · rfl
      · exact (isScript_excl (hhs _ h)).2.2.1
      · rfl
      · exact (isMount_excl (hhm _ h)).2.1
    · intro e he
      simp only [List.mem_cons, List.mem_append, List.mem_singleton, List.not_mem_nil,
        or_false, false_or, or_assoc] at he
      rcases he with h | rfl | h | rfl
      · exact (isUnmount_excl (hhu _ h)).2.2.1
      · rfl
      · exact (isFrag_excl (hhf _ h)).2.2.2.1
      · rfl
  · refine @evBefore_of_split _ _ _
      (unTr ++ Ev.fetchTemplate path :: fragTr ++ [Ev.swap, Ev.rewriteLinks] ++ scriptTr)
      (Ev.ready :: mountTr)
      (by simp) ?_ ?_
    · intro e he
      simp only [List.mem_cons] at he
      rcases he with rfl | h
      · rfl
      · exact (isMount_excl (hhm _ h)).2.2.2.1
    · intro e he
      simp only [List.mem_cons, List.mem_append, List.mem_singleton, List.not_mem_nil,
        or_false, false_or, or_assoc] at he
      rcases he with h | rfl | h | rfl | rfl | h
      · exact (isUnmount_excl (hhu _ h)).2.2.2.2.2.1
      · rfl
      · exact (isFrag_excl (hhf _ h)).2.2.2.2.2.1
      · rfl
      · rfl
      · exact (isScript_excl (hhs _ h)).2.2.2.2.2.1
  · refine @evBefore_of_split _ _ _
      (unTr ++ Ev.fetchTemplate path :: fragTr ++ [Ev.swap, Ev.rewriteLinks] ++ scriptTr ++ [Ev.ready])
      mountTr
      (by simp) ?_ ?_
    · intro e he
      exact (isMount_excl (hhm _ he)).2.2.2.2.2.1
    · intro e he
      simp only [List.mem_cons, List.mem_append, List.mem_singleton, List.not_mem_nil,
        or_false, false_or, or_assoc] at he
      rcases he with h | rfl | h | rfl | rfl | h | rfl
      · exact (isUnmount_excl (hhu _ h)).2.2.2.2.2.2
      · rfl
      · exact (isFrag_excl (hhf _ h)).2.2.2.2.2.2
      · rfl
      · rfl
      · exact (isScript_excl (hhs _ h)).2.2.2.2.2.2
      · rfl

/-!
## Claim theorems
-/

/-- C3, counterexample: `normalize` is not idempotent on the valid hash
input `"#/about"`: it maps it to `"/about"`, which `normalize` maps
further to `"about"` instead of returning it unchanged. -/
theorem c3_counterexample :
    normalize (normalize "#/about") ≠ normalize "#/about" := by decide

/-- C3, amended: `normalize` drops the first character of any input
(also of one already starting with `/`), defaulting to `"/"`; hence
`normalize (normalize h) = normalize h` holds exactly when
`normalize h = "/"`. -/
theorem c3_normalize_idempotent_iff (h : String) :
    normalize (normalize h) = normalize h ↔ normalize h = "/" := by
  constructor
  · intro he
    by_contra hne
    have hd : ¬ (String.mk (h.data.drop 1) = "") := by
      intro hemp
      apply hne
      simp only [normalize]
      rw [if_pos hemp]
    have hnh : normalize h = String.mk (h.data.drop 1) := by
      simp only [normalize]
      rw [if_neg hd]
    have hsslash : String.mk (h.data.drop 1) ≠ "/" := by
      rw [hnh] at hne; exact hne
    rw [hnh] at he
    have hdne : h.data.drop 1 ≠ [] := by
      intro hnil
      exact hd (by rw [hnil])
    by_cases hd2 : String.mk ((h.data.drop 1).drop 1) = ""
    · have hns : normalize (String.mk (h.data.drop 1)) = "/" := by
        simp only [normalize]
        rw [if_pos hd2]
      rw [hns] at he
      exact hsslash he.symm
    · have hns : normalize (String.mk (h.data.drop 1))
          = String.mk ((h.data.drop 1).drop 1) := by
        simp only [normalize]
        rw [if_neg hd2]
      rw [hns] at he
      have hdata : (h.data.drop 1).drop 1 = h.data.drop 1 := congrArg String.data he
      have h2 : ((h.data.drop 1).drop 1).length = (h.data.drop 1).length - 1 :=
        List.length_drop 1 (h.data.drop 1)
      have h4 : 0 < (h.data.drop 1).length := List.length_pos.mpr hdne
      rw [hdata] at h2
      omega
  · intro he
    rw [he]
    decide

/-- C4: when fragment resolution completes, the returned tree (the only
tree the caller ever observes) contains no remaining slot marker whose
name maps to a fetchable (present and OK-served) fragment — every such
marker was recursively resolved to full depth and spliced. -/
theorem c4_fragments_fully_resolved
    (frag : List (String × String)) (server : String → FetchResult)
    (fuel : Nat) (page resolved : List Node) (tr : List Ev)
    (h : resolveList frag server fuel page = some (resolved, tr)) :
    noResolvableList frag server resolved = true :=
  noResolvableList_of_all (resolveList_no_resolvable fuel page h)

/-- C4, witness: a two-level nested fragment chain plus an unmapped slot
resolves completely; the output retains only the unmapped marker. -/
theorem c4_fragments_fully_resolved_witness :
    resolveList fragW serverW 3 [Node.slot "nav" [], Node.slot "missing" []]
        = some ([Node.elem "nav" [Node.text "S"], Node.slot "missing" []],
            [Ev.fetchFragment "nav.html", Ev.fetchFragment "side.html"]) ∧
    noResolvableList fragW serverW
        [Node.elem "nav" [Node.text "S"], Node.slot "missing" []] = true :=
  ⟨rfl, c4_fragments_fully_resolved fragW serverW 3
    [Node.slot "nav" [], Node.slot "missing" []]
    [Node.elem "nav" [Node.text "S"], Node.slot "missing" []]
    [Ev.fetchFragment "nav.html", Ev.fetchFragment "side.html"] rfl⟩

/-- In the spec scenario with fragment table `{ "nav": "nav.html" }` and
`nav.html` containing a slot that is itself named `nav`, the resolver
re-enters itself forever: no fuel suffices. -/
theorem resolveCyc_none (fuel : Nat) :
    resolveList fragCyc serverCyc fuel [Node.slot "nav" []] = none := by
  induction fuel with
  | zero => rfl
  | succ f ih =>
    show resolveListAux (resolveList fragCyc serverCyc f) fragCyc serverCyc
        [Node.slot "nav" []] = none
    rw [resolveListAux_cons]
    have hnode : resolveNodeAux (resolveList fragCyc serverCyc f) fragCyc serverCyc
        (Node.slot "nav" [])
        = (resolveList fragCyc serverCyc f [Node.slot "nav" []]).map
            (fun p => (p.1, Ev.fetchFragment "nav.html" :: p.2)) := rfl
    rw [hnode, ih]
    rfl

/-- C9, counterexample: in the scenario exactly as stated — fragment
table `{ "nav": "nav.html" }`, `nav.html` containing one slot named
`nav` — resolution does not terminate (the slot's name is in the table,
so the code refetches and recurses unboundedly): no result is ever
produced. -/
theorem c9_counterexample :
    ¬ ∃ fuel r, resolveList fragCyc serverCyc fuel [Node.slot "nav" []] = some r := by
  rintro ⟨fuel, r, hr⟩
  rw [resolveCyc_none fuel] at hr
  exact Option.noConfusion hr

/-- A failing slot in any sibling context: the marker is kept (with its
syntactically nested slots still processed, as they belong to the same
`querySelectorAll` batch), the failure is logged, siblings resolve
normally — at the level of one resolution pass. -/
theorem c7aux {rec : List Node → Option (List Node × List Ev)}
    {frag : List (String × String)} {server : String → FetchResult}
    {name path : String} {cs l1 l2 r1 r2 rc : List Node} {t1 t2 tc : List Ev}
    (hn : frag.lookup name = some path)
    (hfail : server path = .netFail ∨ ∃ content, server path = .success false content)
    (h1 : resolveListAux rec frag server l1 = some (r1, t1))
    (h2 : resolveListAux rec frag server l2 = some (r2, t2))
    (hc : resolveListAux rec frag server cs = some (rc, tc)) :
    ∃ e, (e = Ev.fragFetchError name path ∨ e = Ev.fragLoadError name path) ∧
      resolveListAux rec frag server (l1 ++ Node.slot name cs :: l2)
        = some (r1 ++ Node.slot name rc :: r2,
            t1 ++ (Ev.fetchFragment path :: e :: tc) ++ t2) := by
  rcases hfail with hs | ⟨content, hs⟩
  · refine ⟨Ev.fragFetchError name path, Or.inl rfl, ?_⟩
    have hnode : resolveNodeAux rec frag server (Node.slot name cs)
        = some ([Node.slot name rc],
            Ev.fetchFragment path :: Ev.fragFetchError name path :: tc) := by
      simp only [resolveNodeAux, hn, hs, hc, Option.map_some']
    have hcons : resolveListAux rec frag server (Node.slot name cs :: l2)
        = some (Node.slot name rc :: r2,
            (Ev.fetchFragment path :: Ev.fragFetchError name path :: tc) ++ t2) := by
      rw [resolveListAux_cons, hnode, h2]
      simp
    rw [List.append_assoc]
    exact resolveListAux_append h1 hcons
  · refine ⟨Ev.fragLoadError name path, Or.inr rfl, ?_⟩
    have hnode : resolveNodeAux rec frag server (Node.slot name cs)
        = some ([Node.slot name rc],
            Ev.fetchFragment path :: Ev.fragLoadError name path :: tc) := by
      simp only [resolveNodeAux, hn, hs, hc, Option.map_some']
    have hcons : resolveListAux rec frag server (Node.slot name cs :: l2)
        = some (Node.slot name rc :: r2,
            (Ev.fetchFragment path :: Ev.fragLoadError name path :: tc) ++ t2) := by
      rw [resolveListAux_cons, hnode, h2]
      simp
    rw [List.append_assoc]
    exact resolveListAux_append h1 hcons

/-- C7: a slot whose fragment fetch fails in transport or returns a
non-OK status has the failure logged (a `fragFetchError` respectively
`fragLoadError` event), keeps its marker in place, and does not stop the
resolution of the surrounding page, which completes normally. -/
theorem c7_fragment_failure_recoverable
    (frag : List (String × String)) (server : String → FetchResult)
    (fuel : Nat) (name path : String)
    (cs l1 l2 r1 r2 rc : List Node) (t1 t2 tc : List Ev)
    (hn : frag.lookup name = some path)
    (hfail : server path = .netFail ∨ ∃ content, server path = .success false content)
    (h1 : resolveList frag server fuel l1 = some (r1, t1))
    (h2 : resolveList frag server fuel l2 = some (r2, t2))
    (hc : resolveList frag server fuel cs = some (rc, tc)) :
    ∃ e, (e = Ev.fragFetchError name path ∨ e = Ev.fragLoadError name path) ∧
      resolveList frag server fuel (l1 ++ Node.slot name cs :: l2)
        = some (r1 ++ Node.slot name rc :: r2,
            t1 ++ (Ev.fetchFragment path :: e :: tc) ++ t2) := by
  cases fuel with
  | zero => exact c7aux hn hfail h1 h2 hc
  | succ f => exact c7aux hn hfail h1 h2 hc

/-- C7, witness: the non-OK fragment `bad` between two text siblings is
logged, left in place, and the page completes. -/
theorem c7_fragment_failure_recoverable_witness :
    fragW.lookup "bad" = some "bad.html" ∧
    (serverW "bad.html" = .netFail ∨
      ∃ content, serverW "bad.html" = .success false content) ∧
    (∃ e, (e = Ev.fragFetchError "bad" "bad.html" ∨
          e = Ev.fragLoadError "bad" "bad.html") ∧
      resolveList fragW serverW 1
          ([Node.text "A"] ++ Node.slot "bad" [] :: [Node.text "B"])
        = some ([Node.text "A"] ++ Node.slot "bad" [] :: [Node.text "B"],
            [] ++ (Ev.fetchFragment "bad.html" :: e :: []) ++ [])) :=
  ⟨rfl, Or.inr ⟨[], rfl⟩,
    c7_fragment_failure_recoverable fragW serverW 1 "bad" "bad.html"
      [] [Node.text "A"] [Node.text "B"] [Node.text "A"] [Node.text "B"] []
      [] [] [] rfl (Or.inr ⟨[], rfl⟩) rfl rfl rfl⟩

/-- An unmapped slot in any sibling context at the level of one
resolution pass: the marker is kept with no events of its own. -/
theorem c8aux {rec : List Node → Option (List Node × List Ev)}
    {frag : List (String × String)} {server : String → FetchResult}
    {name : String} {cs l1 l2 r1 r2 rc : List Node} {t1 t2 tc : List Ev}
    (hn : frag.lookup name = none)
    (h1 : resolveListAux rec frag server l1 = some (r1, t1))
    (h2 : resolveListAux rec frag server l2 = some (r2, t2))
    (hc : resolveListAux rec frag server cs = some (rc, tc)) :
    resolveListAux rec frag server (l1 ++ Node.slot name cs :: l2)
      = some (r1 ++ Node.slot name rc :: r2, t1 ++ tc ++ t2) := by
  have hnode : resolveNodeAux rec frag server (Node.slot name cs)
      = some ([Node.slot name rc], tc) := by
    simp only [resolveNodeAux, hn, hc, Option.map_some']
  have hcons : resolveListAux rec frag server (Node.slot name cs :: l2)
      = some (Node.slot name rc :: r2, tc ++ t2) := by
    rw [resolveListAux_cons, hnode, h2]
    simp
  rw [List.append_assoc]
  exact resolveListAux_append h1 hcons

/-- C8: a slot whose name is absent from the fragment table keeps its
marker in place, contributes no fetch and no error of its own (the only
events are those of its syntactically nested children, which belong to
the same batch), and resolution of the rest of the page is unaffected. -/
theorem c8_unmapped_slot_untouched
    (frag : List (String × String)) (server : String → FetchResult)
    (fuel : Nat) (name : String)
    (cs l1 l2 r1 r2 rc : List Node) (t1 t2 tc : List Ev)
    (hn : frag.lookup name = none)
    (h1 : resolveList frag server fuel l1 = some (r1, t1))
    (h2 : resolveList frag server fuel l2 = some (r2, t2))
    (hc : resolveList frag server fuel cs = some (rc, tc)) :
    resolveList frag server fuel (l1 ++ Node.slot name cs :: l2)
      = some (r1 ++ Node.slot name rc :: r2, t1 ++ tc ++ t2) := by
  cases fuel with
  | zero => exact c8aux hn h1 h2 hc
  | succ f => exact c8aux hn h1 h2 hc

/-- C8, witness: the childless slot `missing` between two text siblings
is left exactly as it was, with an empty trace (no fetch, no error). -/
theorem c8_unmapped_slot_untouched_witness :
    fragW.lookup "missing" = none ∧
    resolveList fragW serverW 1
        ([Node.text "A"] ++ Node.slot "missing" [] :: [Node.text "B"])
      = some ([Node.text "A"] ++ Node.slot "missing" [] :: [Node.text "B"],
          [] ++ [] ++ []) :=
  ⟨rfl, c8_unmapped_slot_untouched fragW serverW 1 "missing"
    [] [Node.text "A"] [Node.text "B"] [Node.text "A"] [Node.text "B"] []
    [] [] [] rfl rfl rfl rfl⟩

/-- C2: within a completed transition, the unmount hook precedes the
template fetch, the content swap precedes the link rewrite, every script
load settles before the ready signal, and the mount hook fires only
after the ready signal. -/
theorem c2_transition_order (cfg : Config) (fuel : Nat) (s : RouterState)
    (r : RouterState) (t : List Ev)
    (h : render cfg fuel s = (some r, t)) :
    evBefore Ev.isUnmount Ev.isFetchTemplate t ∧
    evBefore Ev.isSwap Ev.isRewrite t ∧
    evBefore Ev.isScript Ev.isReady t ∧
    evBefore Ev.isReady Ev.isMount t := by
  cases hlook : lookupRoute cfg.routes (normalize s.hash) with
  | none =>
    simp only [render, hlook, Prod.mk.injEq] at h
    obtain ⟨hr, ht⟩ := h
    subst ht
    refine ⟨?_, ?_, ?_, ?_⟩ <;>
      refine @evBefore_of_split _ _ _ (unmountTrace s.onUnmount) [] (by simp) (by simp) ?_
    · exact fun e he => (isUnmount_excl (unmountTrace_events _ e he)).1
    · exact fun e he => (isUnmount_excl (unmountTrace_events _ e he)).2.2.1
    · exact fun e he => (isUnmount_excl (unmountTrace_events _ e he)).2.2.2.2.2.1
    · exact fun e he => (isUnmount_excl (unmountTrace_events _ e he)).2.2.2.2.2.2
  | some route =>
    simp only [render, hlook] at h
    cases hserv : cfg.server route.template with
    | netFail =>
      simp only [renderRoute, hserv, Prod.mk.injEq] at h
      exact absurd h.1.symm (by simp)
    | success ok content =>
      cases hres : resolveList cfg.fragments cfg.server fuel content with
      | none =>
        simp only [renderRoute, hserv, hres, Prod.mk.injEq] at h
        exact absurd h.1.symm (by simp)
      | some q =>
        obtain ⟨resolved, fragTr⟩ := q
        simp only [renderRoute, hserv, hres, Prod.mk.injEq] at h
        obtain ⟨hr, ht⟩ := h
        subst ht
        exact renderTrace_order _ _ _ _ _
          (unmountTrace_events s.onUnmount)
          (resolveList_frag_events fuel content hres)
          (runScripts_script_events cfg.scriptOutcome route.scripts _)
          (mountTrace_events _)


/-- C2, witness: a full transition of the witness scenario, with its
concrete state and trace. -/
theorem c2_transition_order_witness :
    render cfgW 5 sW = (some
      { hash := "#/", onMount := none, onUnmount := some 12,
        rootContent := [Node.elem "nav" [Node.text "S"], Node.a "#/about" []],
        title := "Home", dynamicStyles := ["home.css"],
        dynamicScripts := ["home.js"] },
      [Ev.unmountHook 3, Ev.fetchTemplate "home.html",
        Ev.fetchFragment "nav.html", Ev.fetchFragment "side.html", Ev.swap,
        Ev.rewriteLinks, Ev.scriptLoaded "home.js", Ev.ready, Ev.mountHook 11]) ∧
    (evBefore Ev.isUnmount Ev.isFetchTemplate
      [Ev.unmountHook 3, Ev.fetchTemplate "home.html",
        Ev.fetchFragment "nav.html", Ev.fetchFragment "side.html", Ev.swap,
        Ev.rewriteLinks, Ev.scriptLoaded "home.js", Ev.ready, Ev.mountHook 11] ∧
    evBefore Ev.isSwap Ev.isRewrite
      [Ev.unmountHook 3, Ev.fetchTemplate "home.html",
        Ev.fetchFragment "nav.html", Ev.fetchFragment "side.html", Ev.swap,
        Ev.rewriteLinks, Ev.scriptLoaded "home.js", Ev.ready, Ev.mountHook 11] ∧
    evBefore Ev.isScript Ev.isReady
      [Ev.unmountHook 3, Ev.fetchTemplate "home.html",
        Ev.fetchFragment "nav.html", Ev.fetchFragment "side.html", Ev.swap,
        Ev.rewriteLinks, Ev.scriptLoaded "home.js", Ev.ready, Ev.mountHook 11] ∧
    evBefore Ev.isReady Ev.isMount
      [Ev.unmountHook 3, Ev.fetchTemplate "home.html",
        Ev.fetchFragment "nav.html", Ev.fetchFragment "side.html", Ev.swap,
        Ev.rewriteLinks, Ev.scriptLoaded "home.js", Ev.ready, Ev.mountHook 11]) :=
  ⟨rfl, c2_transition_order cfgW 5 sW _ _ rfl⟩

/-- Explicit form of a completed transition: the post-state is the
assembled state threaded through script loading with the mount slot
cleared, and the trace is the canonical event sequence. -/
theorem render_success_state (cfg : Config) (fuel : Nat) (s : RouterState)
    (route : Route) (ok : Bool) (content resolved : List Node) (fragTr : List Ev)
    (hlook : lookupRoute cfg.routes (normalize s.hash) = some route)
    (hserv : cfg.server route.template = .success ok content)
    (hres : resolveList cfg.fragments cfg.server fuel content = some (resolved, fragTr)) :
    render cfg fuel s
      = (some { (runScripts cfg.scriptOutcome route.scripts
            (assembled s route resolved)).1 with onMount := none },
        unmountTrace s.onUnmount
          ++ (Ev.fetchTemplate route.template :: fragTr
            ++ [Ev.swap, Ev.rewriteLinks]
            ++ (runScripts cfg.scriptOutcome route.scripts (assembled s route resolved)).2
            ++ [Ev.ready]
            ++ mountTrace (runScripts cfg.scriptOutcome route.scripts
                (assembled s route resolved)).1.onMount)) := by
  simp only [render, renderRoute, assembled, hlook, hserv, hres]

/-- C6, counterexample: with a title-like marker element `<title>From
Marker</title>` in the page markup and no `title` field on the route,
the document title becomes the placeholder (not the marker value) and
the marker element is not removed from the rendered tree. -/
theorem c6_counterexample :
    (render cfgTitle 1 sW).1.map RouterState.title = some "Untitled Page" ∧
    (render cfgTitle 1 sW).1.map RouterState.title ≠ some "From Marker" ∧
    (render cfgTitle 1 sW).1.map RouterState.rootContent
      = some [Node.elem "title" [Node.text "From Marker"]] := by
  refine ⟨rfl, ?_, rfl⟩
  decide

/-- C6, amended: during every completed transition the document title is
set from the route descriptor's optional `title` field, defaulting to
`"Untitled Page"`; the page markup is not consulted for the title and no
element is removed from it beyond fragment splicing — the mounted tree
is exactly the fragment-resolved, link-rewritten template. -/
theorem c6_title_from_route_amended (cfg : Config) (fuel : Nat) (s : RouterState)
    (route : Route) (r : RouterState) (t : List Ev) (ok : Bool)
    (content resolved : List Node) (fragTr : List Ev)
    (hlook : lookupRoute cfg.routes (normalize s.hash) = some route)
    (hserv : cfg.server route.template = .success ok content)
    (hres : resolveList cfg.fragments cfg.server fuel content = some (resolved, fragTr))
    (h : render cfg fuel s = (some r, t)) :
    r.title = route.title.getD "Untitled Page" ∧ r.rootContent = rewriteList resolved := by
  rw [render_success_state cfg fuel s route ok content resolved fragTr hlook hserv hres] at h
  have hr := Option.some.inj (congrArg Prod.fst h)
  subst hr
  constructor
  · have ht := (runScripts_fields cfg.scriptOutcome route.scripts
      (assembled s route resolved)).2.1
    simpa [assembled] using ht
  · have hrc := (runScripts_fields cfg.scriptOutcome route.scripts
      (assembled s route resolved)).2.2.1
    simpa [assembled] using hrc

/-- C6, witness: the witness transition sets the title from the route
descriptor (`"Home"`) and mounts the resolved, rewritten template. -/
theorem c6_title_from_route_amended_witness :
    lookupRoute cfgW.routes (normalize sW.hash) = some routeHomeW ∧
    cfgW.server routeHomeW.template
      = .success true [Node.slot "nav" [], Node.a "/about" []] ∧
    resolveList cfgW.fragments cfgW.server 5
        [Node.slot "nav" [], Node.a "/about" []]
      = some ([Node.elem "nav" [Node.text "S"], Node.a "/about" []],
          [Ev.fetchFragment "nav.html", Ev.fetchFragment "side.html"]) ∧
    "Home" = routeHomeW.title.getD "Untitled Page" ∧
    [Node.elem "nav" [Node.text "S"], Node.a "#/about" []]
      = rewriteList [Node.elem "nav" [Node.text "S"], Node.a "/about" []] := by
  refine ⟨rfl, rfl, rfl, ?_, ?_⟩
  · exact (c6_title_from_route_amended cfgW 5 sW routeHomeW _ _ true
      [Node.slot "nav" [], Node.a "/about" []]
      [Node.elem "nav" [Node.text "S"], Node.a "/about" []]
      [Ev.fetchFragment "nav.html", Ev.fetchFragment "side.html"]
      rfl rfl rfl rfl).1
  · exact (c6_title_from_route_amended cfgW 5 sW routeHomeW _ _ true
      [Node.slot "nav" [], Node.a "/about" []]
      [Node.elem "nav" [Node.text "S"], Node.a "/about" []]
      [Ev.fetchFragment "nav.html", Ev.fetchFragment "side.html"]
      rfl rfl rfl rfl).2

/-- C5, counterexample: a transition away from a page that had
registered unmount hook `7` erases the registration slot even though the
newly activated page registers no replacement — consulting the hook
clears the entry, contradicting "consulted (not cleared)". -/
theorem c5_counterexample :
    ({ sW with onUnmount := some 7 } : RouterState).onUnmount = some 7 ∧
    (render cfgPlain 1 { sW with onUnmount := some 7 }).1.map RouterState.onUnmount
      = some none := ⟨rfl, rfl⟩

/-- C5, amended: the single global unmount slot is read and cleared at
the start of every transition; after a completed transition its value is
exactly the last unmount registration made by the new page's scripts
(starting from the cleared slot), and the mount slot is cleared right
after its consult. -/
theorem c5_unmount_slot_cleared_amended (cfg : Config) (fuel : Nat) (s : RouterState)
    (route : Route) (r : RouterState) (t : List Ev) (ok : Bool)
    (content resolved : List Node) (fragTr : List Ev)
    (hlook : lookupRoute cfg.routes (normalize s.hash) = some route)
    (hserv : cfg.server route.template = .success ok content)
    (hres : resolveList cfg.fragments cfg.server fuel content = some (resolved, fragTr))
    (h : render cfg fuel s = (some r, t)) :
    r.onMount = none ∧
    r.onUnmount = finalUnmountReg cfg.scriptOutcome route.scripts none := by
  rw [render_success_state cfg fuel s route ok content resolved fragTr hlook hserv hres] at h
  have hr := Option.some.inj (congrArg Prod.fst h)
  subst hr
  refine ⟨rfl, ?_⟩
  have hu := runScripts_onUnmount cfg.scriptOutcome route.scripts (assembled s route resolved)
  simpa [assembled] using hu

/-- C5, witness: the witness transition clears the previous unmount
registration (`3`) and ends with the slot holding exactly the new
page's registration (`12`). -/
theorem c5_unmount_slot_cleared_amended_witness :
    lookupRoute cfgW.routes (normalize sW.hash) = some routeHomeW ∧
    (finalUnmountReg cfgW.scriptOutcome routeHomeW.scripts none = some 12) ∧
    (none : Option Nat) = none ∧
    some 12 = finalUnmountReg cfgW.scriptOutcome routeHomeW.scripts none := by
  refine ⟨rfl, rfl, ?_, ?_⟩
  · exact (c5_unmount_slot_cleared_amended cfgW 5 sW routeHomeW _ _ true
      [Node.slot "nav" [], Node.a "/about" []]
      [Node.elem "nav" [Node.text "S"], Node.a "/about" []]
      [Ev.fetchFragment "nav.html", Ev.fetchFragment "side.html"]
      rfl rfl rfl rfl).1
  · exact (c5_unmount_slot_cleared_amended cfgW 5 sW routeHomeW _ _ true
      [Node.slot "nav" [], Node.a "/about" []]
      [Node.elem "nav" [Node.text "S"], Node.a "/about" []]
      [Ev.fetchFragment "nav.html", Ev.fetchFragment "side.html"]
      rfl rfl rfl rfl).2

/-- C1, counterexample: navigating to the missing key `/missing` with
unmount hook `3` registered invokes the unmount hook (both with and
without a `404` entry), and with the `404` entry present the `404`
page's own mount hook (`9`, registered by `nf.js`) also fires — the
claim that no mount and no unmount hook is invoked is false. -/
theorem c1_counterexample :
    cfgNo404.routes.lookup (normalize sMissW.hash) = none ∧
    cfgW.routes.lookup (normalize sMissW.hash) = none ∧
    Ev.unmountHook 3 ∈ (render cfgNo404 5 sMissW).2 ∧
    Ev.mountHook 9 ∈ (render cfgW 5 sMissW).2 := by
  refine ⟨rfl, rfl, ?_, ?_⟩ <;> decide

/-- C1, amended: on navigation to a key absent from the route table the
registered unmount hook of the previous page is always invoked first
(and its slot cleared); then, when the `404` entry exists, the
transition proceeds as a normal render of that entry (including its
mount hook, if its page registers one); otherwise the literal not-found
markup and title are set and no mount hook fires. -/
theorem c1_missing_route_amended (cfg : Config) (fuel : Nat) (s : RouterState)
    (hmiss : cfg.routes.lookup (normalize s.hash) = none) :
    (∀ hk, s.onUnmount = some hk → Ev.unmountHook hk ∈ (render cfg fuel s).2) ∧
    (cfg.routes.lookup "404" = none →
      render cfg fuel s
        = (some { s with
              onUnmount := none
              rootContent := notFoundMarkup
              title := notFoundTitle },
          unmountTrace s.onUnmount) ∧
      ∀ hk, Ev.mountHook hk ∉ (render cfg fuel s).2) ∧
    (∀ rt, cfg.routes.lookup "404" = some rt →
      render cfg fuel s
        = ((renderRoute cfg fuel { s with onUnmount := none } rt).1,
          unmountTrace s.onUnmount ++ (renderRoute cfg fuel { s with onUnmount := none } rt).2)) := by
  have hlr : lookupRoute cfg.routes (normalize s.hash) = cfg.routes.lookup "404" := by
    simp [lookupRoute, hmiss]
  refine ⟨?_, ?_, ?_⟩
  · intro hk hku
    cases h404 : cfg.routes.lookup "404" with
    | none =>
      simp only [render, hlr, h404, hku]
      simp [unmountTrace]
    | some rt =>
      simp only [render, hlr, h404, hku]
      simp [unmountTrace]
  · intro h404
    constructor
    · simp only [render, hlr, h404]
    · intro hk hmem
      simp only [render, hlr, h404] at hmem
      cases ho : s.onUnmount <;> rw [ho] at hmem <;> simp [unmountTrace] at hmem
  · intro rt h404
    simp only [render, hlr, h404]


/-- C1, witness: the amended statement at the witness scenario without a
`404` entry. -/
theorem c1_missing_route_amended_witness :
    cfgNo404.routes.lookup (normalize sMissW.hash) = none ∧
    ((∀ hk, sMissW.onUnmount = some hk →
        Ev.unmountHook hk ∈ (render cfgNo404 5 sMissW).2) ∧
      (cfgNo404.routes.lookup "404" = none →
        render cfgNo404 5 sMissW
          = (some { sMissW with
                onUnmount := none
                rootContent := notFoundMarkup
                title := notFoundTitle },
            unmountTrace sMissW.onUnmount) ∧
        ∀ hk, Ev.mountHook hk ∉ (render cfgNo404 5 sMissW).2) ∧
      (∀ rt, cfgNo404.routes.lookup "404" = some rt →
        render cfgNo404 5 sMissW
          = ((renderRoute cfgNo404 5 { sMissW with onUnmount := none } rt).1,
            unmountTrace sMissW.onUnmount
              ++ (renderRoute cfgNo404 5 { sMissW with onUnmount := none } rt).2))) :=
  ⟨rfl, c1_missing_route_amended cfgNo404 5 sMissW rfl⟩

theorem unmountTrace_count_le_one (o : Option Nat) (hk : Nat) :
    (unmountTrace o).count (Ev.unmountHook hk) ≤ 1 := by
  cases o with
  | none => simp [unmountTrace]
  | some h => simp [unmountTrace, List.count_cons]; split <;> simp

theorem mountTrace_count_le_one (o : Option Nat) (hk : Nat) :
    (mountTrace o).count (Ev.mountHook hk) ≤ 1 := by
  cases o with
  | none => simp [mountTrace]
  | some h => simp [mountTrace, List.count_cons]; split <;> simp

theorem count_eq_zero_of_classifier {l : List Ev} {p : Ev → Bool} {x : Ev}
    (hl : ∀ e ∈ l, p e = true) (hx : p x = false) : l.count x = 0 :=
  List.count_eq_zero.mpr fun hmem => by rw [hl x hmem] at hx; exact Bool.noConfusion hx

/-- C10: within one transition each hook fires at most once; an unmount
hook fires only if it was the registered slot value at the start of the
transition; when the route lookup succeeds and the transition completes,
the mount slot of the post-state is cleared and the unmount slot holds
exactly the new page's last registration; and a mount hook fires only if
it is the net mount registration at consult time — so a consumed hook
can never fire again unless a page registers it again. -/
theorem c10_hooks_consumed_once (cfg : Config) (fuel : Nat) (s : RouterState)
    (res : Option RouterState) (t : List Ev)
    (h : render cfg fuel s = (res, t)) :
    (∀ hk, t.count (Ev.unmountHook hk) ≤ 1 ∧ t.count (Ev.mountHook hk) ≤ 1) ∧
    (∀ hk, Ev.unmountHook hk ∈ t → s.onUnmount = some hk) ∧
    (∀ route r, lookupRoute cfg.routes (normalize s.hash) = some route →
      res = some r →
      r.onMount = none ∧
      r.onUnmount = finalUnmountReg cfg.scriptOutcome route.scripts none) ∧
    (∀ hk route, Ev.mountHook hk ∈ t →
      lookupRoute cfg.routes (normalize s.hash) = some route →
      finalMountReg cfg.scriptOutcome route.scripts s.onMount = some hk) := by
  have hmemu : ∀ hk, Ev.unmountHook hk ∈ unmountTrace s.onUnmount → s.onUnmount = some hk := by
    intro hk hmem
    cases ho : s.onUnmount with
    | none => rw [ho] at hmem; simp [unmountTrace] at hmem
    | some h0 =>
      rw [ho] at hmem
      simp only [unmountTrace, List.mem_singleton] at hmem
      rw [(Ev.unmountHook.injEq .. ).mp hmem.symm]
  cases hlook : lookupRoute cfg.routes (normalize s.hash) with
  | none =>
    simp only [render, hlook, Prod.mk.injEq] at h
    obtain ⟨hres, ht⟩ := h
    subst ht
    refine ⟨?_, hmemu, ?_, ?_⟩
    · intro hk
      refine ⟨unmountTrace_count_le_one _ _, ?_⟩
      have h1 : (unmountTrace s.onUnmount).count (Ev.mountHook hk) = 0 :=
        count_eq_zero_of_classifier (unmountTrace_events _) rfl
      omega
    · intro route r hx
      exact absurd hx (by simp)
    · intro hk route hmem hx
      exact absurd hx (by simp)
  | some route =>
    cases hserv : cfg.server route.template with
    | netFail =>
      simp only [render, renderRoute, hlook, hserv, Prod.mk.injEq] at h
      obtain ⟨hres, ht⟩ := h
      subst ht
      refine ⟨?_, ?_, ?_, ?_⟩
      · intro hk
        constructor
        · rw [List.count_append]
          have h2 : [Ev.fetchTemplate route.template].count (Ev.unmountHook hk) = 0 := by simp
          have h1 := unmountTrace_count_le_one s.onUnmount hk
          omega
        · rw [List.count_append]
          have h1 : (unmountTrace s.onUnmount).count (Ev.mountHook hk) = 0 :=
            count_eq_zero_of_classifier (unmountTrace_events _) rfl
          have h2 : [Ev.fetchTemplate route.template].count (Ev.mountHook hk) = 0 := by simp
          omega
      · intro hk hmem
        simp only [List.mem_append, List.mem_singleton] at hmem
        rcases hmem with hmem | hmem
        · exact hmemu hk hmem
        · exact absurd hmem (by simp)
      · intro route2 r hx hr
        rw [← hres] at hr
        exact absurd hr (by simp)
      · intro hk route2 hmem hx
        simp only [List.mem_append, List.mem_singleton] at hmem
        rcases hmem with hmem | hmem
        · have := unmountTrace_events s.onUnmount _ hmem
          simp [Ev.isUnmount] at this
        · exact absurd hmem (by simp)
    | success ok content =>
      cases hfres : resolveList cfg.fragments cfg.server fuel content with
      | none =>
        simp only [render, renderRoute, hlook, hserv, hfres, Prod.mk.injEq] at h
        obtain ⟨hres, ht⟩ := h
        subst ht
        refine ⟨?_, ?_, ?_, ?_⟩
        · intro hk
          constructor
          · rw [List.count_append]
            have h2 : [Ev.fetchTemplate route.template].count (Ev.unmountHook hk) = 0 := by simp
            have h1 := unmountTrace_count_le_one s.onUnmount hk
            omega
          · rw [List.count_append]
            have h1 : (unmountTrace s.onUnmount).count (Ev.mountHook hk) = 0 :=
              count_eq_zero_of_classifier (unmountTrace_events _) rfl
            have h2 : [Ev.fetchTemplate route.template].count (Ev.mountHook hk) = 0 := by simp
            omega
        · intro hk hmem
          simp only [List.mem_append, List.mem_singleton] at hmem
          rcases hmem with hmem | hmem
          · exact hmemu hk hmem
          · exact absurd hmem (by simp)
        · intro route2 r hx hr
          rw [← hres] at hr
          exact absurd hr (by simp)
        · intro hk route2 hmem hx
          simp only [List.mem_append, List.mem_singleton] at hmem
          rcases hmem with hmem | hmem
          · have := unmountTrace_events s.onUnmount _ hmem
            simp [Ev.isUnmount] at this
          · exact absurd hmem (by simp)
      | some q =>
        obtain ⟨resolved, fragTr⟩ := q
        rw [render_success_state cfg fuel s route ok content resolved fragTr hlook hserv hfres] at h
        simp only [Prod.mk.injEq] at h
        obtain ⟨hres, ht⟩ := h
        subst ht
        have hfr : ∀ e ∈ fragTr, Ev.isFrag e = true :=
          resolveList_frag_events fuel content hfres
        have hsc : ∀ e ∈ (runScripts cfg.scriptOutcome route.scripts
            (assembled s route resolved)).2, Ev.isScript e = true :=
          runScripts_script_events cfg.scriptOutcome route.scripts _
        have hmt : ∀ e ∈ mountTrace (runScripts cfg.scriptOutcome route.scripts
            (assembled s route resolved)).1.onMount, Ev.isMount e = true :=
          mountTrace_events _
        refine ⟨?_, ?_, ?_, ?_⟩
        · intro hk
          constructor
          · have c1 := unmountTrace_count_le_one s.onUnmount hk
            have c2 : fragTr.count (Ev.unmountHook hk) = 0 :=
              count_eq_zero_of_classifier hfr rfl
            have c3 : (runScripts cfg.scriptOutcome route.scripts
                (assembled s route resolved)).2.count (Ev.unmountHook hk) = 0 :=
              count_eq_zero_of_classifier hsc rfl
            have c4 : (mountTrace (runScripts cfg.scriptOutcome route.scripts
                (assembled s route resolved)).1.onMount).count (Ev.unmountHook hk) = 0 :=
              count_eq_zero_of_classifier hmt rfl
            simp only [List.count_append, List.count_cons, c2, c3, c4]
            simp
            omega
          · have c1 : (unmountTrace s.onUnmount).count (Ev.mountHook hk) = 0 :=
              count_eq_zero_of_classifier (unmountTrace_events _) rfl
            have c2 : fragTr.count (Ev.mountHook hk) = 0 :=
              count_eq_zero_of_classifier hfr rfl
            have c3 : (runScripts cfg.scriptOutcome route.scripts
                (assembled s route resolved)).2.count (Ev.mountHook hk) = 0 :=
              count_eq_zero_of_classifier hsc rfl
            have c4 := mountTrace_count_le_one (runScripts cfg.scriptOutcome route.scripts
                (assembled s route resolved)).1.onMount hk
            simp only [List.count_append, List.count_cons, c1, c2, c3]
            simp
            omega
        · intro hk hmem
          simp only [List.mem_append, List.mem_cons, List.mem_singleton,
            List.not_mem_nil, or_false, false_or, or_assoc] at hmem
          rcases hmem with hmem | hmem | hmem | hmem | hmem | hmem | hmem | hmem
          · exact hmemu hk hmem
          · exact absurd hmem (by simp)
          · have := hfr _ hmem; simp [Ev.isFrag] at this
          · exact absurd hmem (by simp)
          · exact absurd hmem (by simp)
          · have := hsc _ hmem; simp [Ev.isScript] at this
          · exact absurd hmem (by simp)
          · have := hmt _ hmem; simp [Ev.isMount] at this
        · intro route2 r hx hr
          obtain rfl := Option.some.inj hx
          rw [← hres] at hr
          obtain rfl := Option.some.inj hr
          refine ⟨rfl, ?_⟩
          have hu := runScripts_onUnmount cfg.scriptOutcome route.scripts
            (assembled s route resolved)
          simpa [assembled] using hu
        · intro hk route2 hmem hx
          obtain rfl := Option.some.inj hx
          simp only [List.mem_append, List.mem_cons, List.mem_singleton,
            List.not_mem_nil, or_false, false_or, or_assoc] at hmem
          rcases hmem with hmem | hmem | hmem | hmem | hmem | hmem | hmem | hmem
          · have := unmountTrace_events s.onUnmount _ hmem
            simp [Ev.isUnmount] at this
          · exact absurd hmem (by simp)
          · have := hfr _ hmem; simp [Ev.isFrag] at this
          · exact absurd hmem (by simp)
          · exact absurd hmem (by simp)
          · have := hsc _ hmem; simp [Ev.isScript] at this
          · exact absurd hmem (by simp)
          · cases hqo : (runScripts cfg.scriptOutcome route.scripts
                (assembled s route resolved)).1.onMount with
            | none => rw [hqo] at hmem; simp [mountTrace] at hmem
            | some h0 =>
              rw [hqo] at hmem
              simp only [mountTrace, List.mem_singleton] at hmem
              have hm := runScripts_onMount cfg.scriptOutcome route.scripts
                (assembled s route resolved)
              rw [hqo] at hm
              have : finalMountReg cfg.scriptOutcome route.scripts s.onMount = some h0 := by
                have : (assembled s route resolved).onMount = s.onMount := rfl
                rw [← this]
                exact hm.symm
              rw [this, (Ev.mountHook.injEq .. ).mp hmem]


/-- C10, witness: hook consumption in the witness transition. -/
theorem c10_hooks_consumed_once_witness :
    render cfgW 5 sW = (some
      { hash := "#/", onMount := none, onUnmount := some 12,
        rootContent := [Node.elem "nav" [Node.text "S"], Node.a "#/about" []],
        title := "Home", dynamicStyles := ["home.css"],
        dynamicScripts := ["home.js"] },
      [Ev.unmountHook 3, Ev.fetchTemplate "home.html",
        Ev.fetchFragment "nav.html", Ev.fetchFragment "side.html", Ev.swap,
        Ev.rewriteLinks, Ev.scriptLoaded "home.js", Ev.ready, Ev.mountHook 11]) ∧
    ((∀ hk, ([Ev.unmountHook 3, Ev.fetchTemplate "home.html",
        Ev.fetchFragment "nav.html", Ev.fetchFragment "side.html", Ev.swap,
        Ev.rewriteLinks, Ev.scriptLoaded "home.js", Ev.ready, Ev.mountHook 11]).count (Ev.unmountHook hk) ≤ 1 ∧
        ([Ev.unmountHook 3, Ev.fetchTemplate "home.html",
        Ev.fetchFragment "nav.html", Ev.fetchFragment "side.html", Ev.swap,
        Ev.rewriteLinks, Ev.scriptLoaded "home.js", Ev.ready, Ev.mountHook 11]).count (Ev.mountHook hk) ≤ 1) ∧
    (∀ hk, Ev.unmountHook hk ∈ ([Ev.unmountHook 3, Ev.fetchTemplate "home.html",
        Ev.fetchFragment "nav.html", Ev.fetchFragment "side.html", Ev.swap,
        Ev.rewriteLinks, Ev.scriptLoaded "home.js", Ev.ready, Ev.mountHook 11]) → sW.onUnmount = some hk) ∧
    (∀ route r, lookupRoute cfgW.routes (normalize sW.hash) = some route →
      (some
        { hash := "#/", onMount := none, onUnmount := some 12,
          rootContent := [Node.elem "nav" [Node.text "S"], Node.a "#/about" []],
          title := "Home", dynamicStyles := ["home.css"],
          dynamicScripts := ["home.js"] } : Option RouterState) = some r →
      r.onMount = none ∧
      r.onUnmount = finalUnmountReg cfgW.scriptOutcome route.scripts none) ∧
    (∀ hk route, Ev.mountHook hk ∈ ([Ev.unmountHook 3, Ev.fetchTemplate "home.html",
        Ev.fetchFragment "nav.html", Ev.fetchFragment "side.html", Ev.swap,
        Ev.rewriteLinks, Ev.scriptLoaded "home.js", Ev.ready, Ev.mountHook 11]) →
      lookupRoute cfgW.routes (normalize sW.hash) = some route →
      finalMountReg cfgW.scriptOutcome route.scripts sW.onMount = some hk)) :=
  ⟨rfl, c10_hooks_consumed_once cfgW 5 sW _ _ rfl⟩

/-- C9, amended: with the inner slot of `nav.html` named `sidebar`,
pointing at nothing (absent from the fragment table), resolution
terminates successfully and the final tree contains the `nav.html`
content with its inner slot marker left unresolved as literal markup. -/
theorem c9_self_slot_amended :
    resolveList fragCyc serverAcyc 1 [Node.slot "nav" []]
      = some ([Node.slot "sidebar" []], [Ev.fetchFragment "nav.html"]) := rfl

end Spamf
